import Mathlib

/-!
Shallow embedding of the priority-based IO rate limiter found in
components/file_system/src/rate_limiter.rs, together with theorems that
settle the specification claims about it.

Modelling conventions:
* machine integers (`usize`, `u64`) become `Nat`;
* `Instant` and `Duration` become `Nat` millisecond counts;
* the per-priority atomic arrays (indexed by `IOPriority as usize`) become
  a three-slot structure indexed by `Fin 3`;
* the mutex-protected block is flattened into the limiter state, and the
  algorithms are modelled sequentially (one thread at a time);
* the single `f64` computation (`calculate_ios_per_refill`) is modelled
  with exact arithmetic, see its doc comment.
-/

namespace RateLimiterModel

/-- Source constant `DEFAULT_REFILL_PERIOD = Duration::from_millis(30)`,
in milliseconds. -/
def DEFAULT_REFILL_PERIOD : Nat := 30

/-- Modelled from the spec: the `IOOp` enum (`Read | Write`); its
declaration lives outside the provided source files. -/
inductive IOOp where
  | Read
  | Write
deriving DecidableEq, Repr

/-- Modelled from the spec: the `IOType` enum with its stable ordinals
(`Other, ForegroundRead, ForegroundWrite, Flush, Compaction, Replication,
LoadBalance, Import, Export`); its declaration lives outside the provided
source files. -/
inductive IOType where
  | Other
  | ForegroundRead
  | ForegroundWrite
  | Flush
  | Compaction
  | Replication
  | LoadBalance
  | Import
  | Export
deriving DecidableEq, Repr

/-- Modelled from the spec: the `IOPriority` enum; its declaration lives
outside the provided source files.  The spec requires the three active
priorities to have consecutive adjacent ordinals with `Medium = High - 1`
and `Low = Medium - 1`, and the source asserts
`IOPriority::High as usize > IOPriority::Medium as usize`. -/
inductive IOPriority where
  | Low
  | Medium
  | High
deriving DecidableEq, Repr

/-- Ordinal of a priority (`IOPriority as usize`), consistent with the
constraints above: `Low = 0`, `Medium = 1`, `High = 2`. -/
def IOPriority.idx : IOPriority → Fin 3
  | .Low => ⟨0, by omega⟩
  | .Medium => ⟨1, by omega⟩
  | .High => ⟨2, by omega⟩

/-- Index of `IOPriority::Low` in the per-priority arrays. -/
def prLow : Fin 3 := ⟨0, by omega⟩

/-- Index of `IOPriority::Medium` in the per-priority arrays. -/
def prMedium : Fin 3 := ⟨1, by omega⟩

/-- Index of `IOPriority::High` in the per-priority arrays. -/
def prHigh : Fin 3 := ⟨2, by omega⟩

/-- A three-slot array, standing for `[T; IOPriority::COUNT]`. -/
structure Tri (α : Type) where
  low : α
  medium : α
  high : α
deriving DecidableEq, Repr

/-- Read slot `i` of a three-slot array. -/
def Tri.get {α : Type} (t : Tri α) (i : Fin 3) : α :=
  match i.val with
  | 0 => t.low
  | 1 => t.medium
  | _ => t.high

/-- Write slot `i` of a three-slot array. -/
def Tri.set {α : Type} (t : Tri α) (i : Fin 3) (v : α) : Tri α :=
  match i.val with
  | 0 => { t with low := v }
  | 1 => { t with medium := v }
  | _ => { t with high := v }

/-- Source struct `IOThroughputEstimator { count, long_max, short_sum }`. -/
structure IOThroughputEstimator where
  count : Nat
  long_max : Nat
  short_sum : Nat
deriving DecidableEq, Repr

/-- Source `IOThroughputEstimator::new()`. -/
def IOThroughputEstimator.new : IOThroughputEstimator :=
  { count := 0, long_max := 0, short_sum := 0 }

/-- Source `IOThroughputEstimator::maybe_update_estimation(&mut self, v)`:
returns the updated estimator together with the emitted estimate, if any. -/
def IOThroughputEstimator.maybe_update_estimation
    (e : IOThroughputEstimator) (v : Nat) : IOThroughputEstimator × Option Nat :=
  let count := e.count + 1
  let short_sum := e.short_sum + v
  let long_max := if count % 5 = 0 then max e.long_max (short_sum / 5) else e.long_max
  let short_sum := if count % 5 = 0 then 0 else short_sum
  if count % 200 = 0 ∨ (count < 200 ∧ count % 5 = 0) then
    ({ count := count, long_max := 0, short_sum := 0 }, some long_max)
  else
    ({ count := count, long_max := long_max, short_sum := short_sum }, none)

/-- Source struct `RawIORateLimiter` with its `Mutex<RawIORateLimiterProtected>`
flattened in: `ios_through` and `ios_per_epoch` are the atomic arrays,
the remaining fields are the mutex-protected block. -/
structure RawIORateLimiter where
  ios_through : Tri Nat
  ios_per_epoch : Tri Nat
  next_refill_time : Nat
  pending_ios : Tri Nat
  estimated_ios_through : Tri IOThroughputEstimator
deriving DecidableEq, Repr

/-- Source `RawIORateLimiter::new()` combined with
`RawIORateLimiterProtected::new()`, at creation instant `now0`:
both atomic arrays default to zero and
`next_refill_time = now0 + DEFAULT_REFILL_PERIOD`. -/
def RawIORateLimiter.new (now0 : Nat) : RawIORateLimiter :=
  { ios_through := ⟨0, 0, 0⟩
    ios_per_epoch := ⟨0, 0, 0⟩
    next_refill_time := now0 + DEFAULT_REFILL_PERIOD
    pending_ios := ⟨0, 0, 0⟩
    estimated_ios_through :=
      ⟨IOThroughputEstimator.new, IOThroughputEstimator.new, IOThroughputEstimator.new⟩ }

/-- Source `calculate_ios_per_refill(ios_per_sec, refill_period)`
specialised to `refill_period = DEFAULT_REFILL_PERIOD`.  The source
computes `(ios_per_sec as f64 * refill_period.as_secs_f64()) as usize`
with 30 ms, i.e. the truncation of `ios_per_sec * 0.030`; we model the
`f64` product with exact arithmetic, `ios_per_sec * 30 / 1000`. -/
def calculate_ios_per_refill (ios_per_sec : Nat) : Nat :=
  ios_per_sec * DEFAULT_REFILL_PERIOD / 1000

/-- Source `RawIORateLimiter::set_ios_per_sec`: store the new High epoch
budget; when toggling between zero and non-zero, also store it to Medium
and Low under the mutex. -/
def RawIORateLimiter.set_ios_per_sec
    (s : RawIORateLimiter) (ios_per_sec : Nat) : RawIORateLimiter :=
  let now := calculate_ios_per_refill ios_per_sec
  let before := s.ios_per_epoch.get prHigh
  let s1 := { s with ios_per_epoch := s.ios_per_epoch.set prHigh now }
  if before = 0 ∨ now = 0 then
    { s1 with ios_per_epoch := (s1.ios_per_epoch.set prMedium now).set prLow now }
  else
    s1

/-- One iteration of the `for p in &[IOPriority::High, IOPriority::Medium]`
loop body of `RawIORateLimiter::refill`, at priority index `pi`:
load `limit`, swap the pending bytes into `ios_through[pi]` (clamping the
previous value to `limit` for the estimator), feed the estimator, on
emission store the residual budget to `ios_per_epoch[pi - 1]`, and zero
`pending_ios[pi]`. -/
def refillBody (pi : Fin 3) (s : RawIORateLimiter) : RawIORateLimiter :=
  let limit := s.ios_per_epoch.get pi
  let prev := min (s.ios_through.get pi) limit
  let s1 := { s with ios_through := s.ios_through.set pi (s.pending_ios.get pi) }
  let er := (s1.estimated_ios_through.get pi).maybe_update_estimation prev
  let s2 := { s1 with estimated_ios_through := s1.estimated_ios_through.set pi er.1 }
  let lowerIdx : Fin 3 := ⟨pi.val - 1, Nat.lt_of_le_of_lt (Nat.sub_le pi.val 1) pi.isLt⟩
  let s3 :=
    match er.2 with
    | some est =>
        { s2 with ios_per_epoch :=
            s2.ios_per_epoch.set lowerIdx (if est < limit then limit - est else 1) }
    | none => s2
  { s3 with pending_ios := s3.pending_ios.set pi 0 }

/-- Source `RawIORateLimiter::refill`, with the lock already held, at
wall-clock instant `now`: return untouched when the High budget is zero,
otherwise schedule the next refill and run the loop body for High then
Medium.  No iteration runs for Low. -/
def RawIORateLimiter.refill (s : RawIORateLimiter) (now : Nat) : RawIORateLimiter :=
  if s.ios_per_epoch.get prHigh = 0 then s
  else
    refillBody prMedium
      (refillBody prHigh { s with next_refill_time := now + DEFAULT_REFILL_PERIOD })

/-- Source `refill`, including the `try_lock_for(DEFAULT_REFILL_PERIOD)`
prologue.  Whether the lock becomes available within the period is an
input to the model; `none` models the `expect` panic on timeout. -/
def refill_with_lock
    (lock_acquired : Bool) (s : RawIORateLimiter) (now : Nat) :
    Option RawIORateLimiter :=
  if lock_acquired then some (s.refill now) else none

/-- Result of one run of the `request_impl!` loop: the granted amount
(`none` when the modelling fuel ran out before the loop returned), the
number of sleeps performed, the total slept duration, and the final
limiter state. -/
structure ReqResult where
  granted : Option Nat
  sleeps : Nat
  total_wait : Nat
  state : RawIORateLimiter
deriving DecidableEq, Repr

/-- Source macro `request_impl!(self, priority, amount, mode)`, modelled
sequentially (no interleaved refill) at fixed instant `now`, with `fuel`
bounding the number of loop iterations.  Each iteration: load the cached
budget (return the raw amount if zero), clamp, charge `ios_through`,
return when within budget; otherwise take the lock, retry when a refill
just slipped in, else book pending bytes, sleep until `next_refill_time`
when it is in the future, return when the pending snapshot fits the
cached budget, else loop. -/
def request_impl
    (fuel : Nat) (priority_idx : Fin 3) (amount0 : Nat) (now : Nat)
    (s : RawIORateLimiter) : ReqResult :=
  match fuel with
  | 0 => ⟨none, 0, 0, s⟩
  | fuel + 1 =>
    let cached := s.ios_per_epoch.get priority_idx
    if cached = 0 then ⟨some amount0, 0, 0, s⟩
    else
      let amount := min amount0 cached
      let ios_through := s.ios_through.get priority_idx + amount
      let s1 := { s with ios_through := s.ios_through.set priority_idx ios_through }
      if ios_through ≤ cached then ⟨some amount, 0, 0, s1⟩
      else if now + DEFAULT_REFILL_PERIOD ≤ s1.next_refill_time + 1 then
        request_impl fuel priority_idx amount0 now s1
      else
        let s2 := { s1 with pending_ios :=
          s1.pending_ios.set priority_idx (s1.pending_ios.get priority_idx + amount) }
        let pending := s2.pending_ios.get priority_idx
        let sleeps0 := if now < s2.next_refill_time then 1 else 0
        let wait0 := if now < s2.next_refill_time then s2.next_refill_time - now else 0
        if pending ≤ cached then ⟨some amount, sleeps0, wait0, s2⟩
        else
          let r := request_impl fuel priority_idx amount0 now s2
          ⟨r.granted, sleeps0 + r.sleeps, wait0 + r.total_wait, r.state⟩

/-- Source struct `IORateLimiterStatistics`: per-type accumulated byte
counters, one array per operation kind. -/
structure IORateLimiterStatistics where
  read_bytes : IOType → Nat
  write_bytes : IOType → Nat

/-- Source `IORateLimiterStatistics::new()`: all counters start at zero. -/
def IORateLimiterStatistics.new : IORateLimiterStatistics :=
  { read_bytes := fun _ => 0, write_bytes := fun _ => 0 }

/-- Source `IORateLimiterStatistics::record(io_type, io_op, bytes)`. -/
def IORateLimiterStatistics.record
    (st : IORateLimiterStatistics) (io_type : IOType) (io_op : IOOp)
    (bytes : Nat) : IORateLimiterStatistics :=
  match io_op with
  | .Read =>
      { st with read_bytes := fun t =>
          if t = io_type then st.read_bytes t + bytes else st.read_bytes t }
  | .Write =>
      { st with write_bytes := fun t =>
          if t = io_type then st.write_bytes t + bytes else st.write_bytes t }

/-- Source struct `IORateLimiter`: the facade holding the per-type
priority map, the raw limiter and optional statistics. -/
structure IORateLimiter where
  priority_map : IOType → IOPriority
  throughput_limiter : RawIORateLimiter
  stats : Option IORateLimiterStatistics

/-- Source `IORateLimiter::new(enable_statistics)`, at creation instant
`now0`: every type maps to High priority. -/
def IORateLimiter.new (enable_statistics : Bool) (now0 : Nat) : IORateLimiter :=
  { priority_map := fun _ => IOPriority.High
    throughput_limiter := RawIORateLimiter.new now0
    stats := if enable_statistics then some IORateLimiterStatistics.new else none }

/-- Source `IORateLimiter::request(io_type, io_op, bytes)` (the
`async_request` body is identical except for the sleep primitive): when
`io_op == Write || io_type == Export` the raw limiter is consulted,
otherwise the bytes pass through; granted bytes are recorded into
statistics when they are enabled.  The first component is the granted
amount (`none` when the modelling fuel ran out inside the raw loop). -/
def IORateLimiter.request
    (l : IORateLimiter) (fuel : Nat) (io_type : IOType) (io_op : IOOp)
    (bytes : Nat) (now : Nat) : Option Nat × IORateLimiter :=
  if io_op = IOOp.Write ∨ io_type = IOType.Export then
    let r := request_impl fuel (l.priority_map io_type).idx bytes now l.throughput_limiter
    match r.granted with
    | some g =>
        (some g,
          { l with throughput_limiter := r.state
                   stats := l.stats.map (fun st => st.record io_type io_op g) })
    | none => (none, { l with throughput_limiter := r.state })
  else
    (some bytes, { l with stats := l.stats.map (fun st => st.record io_type io_op bytes) })

/-- Source struct `IORateLimiterDaemon`, reduced to its observable
state: the shared `stop` flag read by the ticker thread. -/
structure IORateLimiterDaemon where
  stop : Bool
deriving DecidableEq, Repr

/-- Source `new_io_rate_limiter_daemon`: the stop flag starts `false`
and the spawned thread loops `while !stop.load(..)`. -/
def new_io_rate_limiter_daemon : IORateLimiterDaemon :=
  { stop := false }

/-- The ticker thread's loop condition, `!stop.load(Ordering::Relaxed)`:
`true` means the thread performs another refill iteration. -/
def IORateLimiterDaemon.loopContinues (d : IORateLimiterDaemon) : Bool :=
  !d.stop

/-- Source `impl Drop for IORateLimiterDaemon`: the destructor executes
`self.stop.store(false, Ordering::Relaxed)`. -/
def IORateLimiterDaemon.drop (d : IORateLimiterDaemon) : IORateLimiterDaemon :=
  { d with stop := false }

/-- One state-mutating operation on the raw limiter, for reachability
statements: a `set_ios_per_sec` call, a `refill` at some instant, or a
`request_impl` run at some priority and instant. -/
inductive LimiterOp where
  | setRate : Nat → LimiterOp
  | doRefill : Nat → LimiterOp
  | doRequest : Nat → Fin 3 → Nat → Nat → LimiterOp

/-- Apply one operation to the raw limiter state. -/
def applyOp (s : RawIORateLimiter) : LimiterOp → RawIORateLimiter
  | .setRate r => s.set_ios_per_sec r
  | .doRefill now => s.refill now
  | .doRequest fuel pri amount now => (request_impl fuel pri amount now s).state

/-- Run a sequence of operations from a state. -/
def runOps (s : RawIORateLimiter) (ops : List LimiterOp) : RawIORateLimiter :=
  ops.foldl applyOp s

/-- The invariant of claim C7: whenever the High epoch budget is zero,
the Medium and Low epoch budgets are zero as well. -/
def budgetsDisabledTogether (s : RawIORateLimiter) : Prop :=
  s.ios_per_epoch.high = 0 → s.ios_per_epoch.medium = 0 ∧ s.ios_per_epoch.low = 0

/-- Concrete state for claim C1: Low has a budget of 4, pending bytes 5
and epoch counter 7; High has a non-zero budget so refill proceeds. -/
def c1State : RawIORateLimiter :=
  { ios_through := ⟨7, 0, 0⟩
    ios_per_epoch := ⟨4, 0, 10⟩
    next_refill_time := 0
    pending_ios := ⟨5, 0, 0⟩
    estimated_ios_through :=
      ⟨IOThroughputEstimator.new, IOThroughputEstimator.new, IOThroughputEstimator.new⟩ }

/-- Concrete state for claim C2: High has budget 10 and pending bytes 25,
so pending exceeds the epoch limit. -/
def c2State : RawIORateLimiter :=
  { ios_through := ⟨0, 0, 0⟩
    ios_per_epoch := ⟨0, 0, 10⟩
    next_refill_time := 0
    pending_ios := ⟨0, 0, 25⟩
    estimated_ios_through :=
      ⟨IOThroughputEstimator.new, IOThroughputEstimator.new, IOThroughputEstimator.new⟩ }

/-- Concrete state for claim C3: High has budget 10, epoch counter 5 and
pending bytes 5, with the next refill scheduled 10 ms in the future
(instant 110, request issued at instant 100). -/
def c3State : RawIORateLimiter :=
  { ios_through := ⟨0, 0, 5⟩
    ios_per_epoch := ⟨0, 0, 10⟩
    next_refill_time := 110
    pending_ios := ⟨0, 0, 5⟩
    estimated_ios_through :=
      ⟨IOThroughputEstimator.new, IOThroughputEstimator.new, IOThroughputEstimator.new⟩ }

/-- Concrete facade for claim C4: statistics disabled, every type at High
priority, High epoch budget 10. -/
def c4Limiter : IORateLimiter :=
  { priority_map := fun _ => IOPriority.High
    throughput_limiter :=
      { ios_through := ⟨0, 0, 0⟩
        ios_per_epoch := ⟨0, 0, 10⟩
        next_refill_time := 0
        pending_ios := ⟨0, 0, 0⟩
        estimated_ios_through :=
          ⟨IOThroughputEstimator.new, IOThroughputEstimator.new, IOThroughputEstimator.new⟩ }
    stats := none }

/-- Concrete state for claim C5: High has budget 10, epoch counter 3 and
pending bytes 5; the estimators are fresh. -/
def c5State : RawIORateLimiter :=
  { ios_through := ⟨0, 0, 3⟩
    ios_per_epoch := ⟨0, 0, 10⟩
    next_refill_time := 0
    pending_ios := ⟨0, 0, 5⟩
    estimated_ios_through :=
      ⟨IOThroughputEstimator.new, IOThroughputEstimator.new, IOThroughputEstimator.new⟩ }

/-- Concrete facade for claim C6: statistics enabled, freshly created at
instant 0 (rate limiting disabled, every budget zero). -/
def c6Limiter : IORateLimiter :=
  IORateLimiter.new true 0

/-- The refill loop never writes `ios_per_epoch[High]`: its cascade
stores only reach the Medium and Low slots. -/
theorem refill_epoch_high (s : RawIORateLimiter) (now : Nat) :
    (s.refill now).ios_per_epoch.high = s.ios_per_epoch.high := by
  rw [RawIORateLimiter.refill]
  split
  · rfl
  · rw [refillBody, refillBody]
    split <;> split <;> rfl

/-- The refill loop runs only for High and Medium, so the Low epoch
counter and the Low pending bytes are never touched. -/
theorem refill_low_untouched (s : RawIORateLimiter) (now : Nat) :
    (s.refill now).ios_through.low = s.ios_through.low ∧
    (s.refill now).pending_ios.low = s.pending_ios.low := by
  rw [RawIORateLimiter.refill]
  split
  · exact ⟨rfl, rfl⟩
  · rw [refillBody, refillBody]
    split <;> split <;> exact ⟨rfl, rfl⟩

/-- With a non-zero High budget, refill swaps the whole pending amount
of High and Medium into their epoch counters and zeroes their pending
slots, regardless of the epoch limits. -/
theorem refill_swaps_pending
    (s : RawIORateLimiter) (now : Nat) (h : s.ios_per_epoch.high ≠ 0) :
    (s.refill now).ios_through.high = s.pending_ios.high ∧
    (s.refill now).pending_ios.high = 0 ∧
    (s.refill now).ios_through.medium = s.pending_ios.medium ∧
    (s.refill now).pending_ios.medium = 0 := by
  rw [RawIORateLimiter.refill]
  split
  · exact absurd (by assumption) h
  · rw [refillBody, refillBody]
    split <;> split <;> exact ⟨rfl, rfl, rfl, rfl⟩

/-- With a non-zero High budget, refill reschedules the next refill one
period after `now`. -/
theorem refill_next_refill_time
    (s : RawIORateLimiter) (now : Nat) (h : s.ios_per_epoch.high ≠ 0) :
    (s.refill now).next_refill_time = now + DEFAULT_REFILL_PERIOD := by
  rw [RawIORateLimiter.refill]
  split
  · exact absurd (by assumption) h
  · rw [refillBody, refillBody]
    split <;> split <;> rfl

/-- Every estimator step increments the sample count by one. -/
theorem maybe_update_estimation_count (e : IOThroughputEstimator) (v : Nat) :
    ((e.maybe_update_estimation v).1).count = e.count + 1 := by
  rw [IOThroughputEstimator.maybe_update_estimation]
  split <;> rfl

/-- With a non-zero High budget, every refill advances the High
estimator by exactly one step. -/
theorem refill_estimator_high_count
    (s : RawIORateLimiter) (now : Nat) (h : s.ios_per_epoch.high ≠ 0) :
    ((s.refill now).estimated_ios_through.high).count =
      (s.estimated_ios_through.high).count + 1 := by
  rw [RawIORateLimiter.refill]
  split
  · exact absurd (by assumption) h
  · rw [refillBody, refillBody]
    split <;> split <;> exact maybe_update_estimation_count _ _

/-- The request loop never writes the epoch budgets. -/
theorem request_impl_epoch (fuel : Nat) (pri : Fin 3) (a0 now : Nat)
    (s : RawIORateLimiter) :
    (request_impl fuel pri a0 now s).state.ios_per_epoch = s.ios_per_epoch := by
  induction fuel generalizing s with
  | zero => rfl
  | succ n ih =>
    simp only [request_impl]
    split
    · rfl
    · split
      · rfl
      · split
        · exact ih _
        · split
          · rfl
          · exact ih _

/-- Every sleep performed by the request loop lasts exactly
`next_refill_time - now`; the total slept duration is that length times
the number of sleeps, with no extension by whole refill periods.  The
loop also never changes `next_refill_time`. -/
theorem request_impl_wait_formula (fuel : Nat) (pri : Fin 3) (a0 now : Nat)
    (s : RawIORateLimiter) :
    (request_impl fuel pri a0 now s).total_wait =
      (request_impl fuel pri a0 now s).sleeps * (s.next_refill_time - now) ∧
    (request_impl fuel pri a0 now s).state.next_refill_time = s.next_refill_time := by
  induction fuel generalizing s with
  | zero => exact ⟨(Nat.zero_mul _).symm, rfl⟩
  | succ n ih =>
    simp only [request_impl]
    split
    · exact ⟨(Nat.zero_mul _).symm, rfl⟩
    · split
      · exact ⟨(Nat.zero_mul _).symm, rfl⟩
      · split
        · exact ih _
        · split
          · refine ⟨?_, rfl⟩
            split
            · exact (Nat.one_mul _).symm
            · exact (Nat.zero_mul _).symm
          · obtain ⟨hw, hn⟩ := ih _
            refine ⟨?_, hn⟩
            rw [hw]
            split
            · rw [Nat.add_mul, Nat.one_mul]
            · rw [Nat.add_mul, Nat.zero_mul]

/-- Whatever the request loop grants is positive and bounded by the
requested amount, provided at least one byte was requested. -/
theorem request_impl_granted_bounds (fuel : Nat) (pri : Fin 3) (bytes now : Nat)
    (s : RawIORateLimiter) (hb : 1 ≤ bytes) :
    ∀ g, (request_impl fuel pri bytes now s).granted = some g →
      0 < g ∧ g ≤ bytes := by
  induction fuel generalizing s with
  | zero => intro g hg; exact absurd hg (by simp [request_impl])
  | succ n ih =>
    intro g hg
    rw [request_impl] at hg
    simp only [] at hg
    split at hg
    · obtain rfl : bytes = g := by simpa using hg
      exact ⟨by omega, by omega⟩
    · split at hg
      · obtain rfl : min bytes (s.ios_per_epoch.get pri) = g := by
          simpa using hg
        have h1 := Nat.min_le_left bytes (s.ios_per_epoch.get pri)
        rename_i hc _
        have h2 := Nat.min_le_right bytes (s.ios_per_epoch.get pri)
        exact ⟨by omega, by omega⟩
      · split at hg
        · exact ih _ g hg
        · split at hg
          · obtain rfl : min bytes (s.ios_per_epoch.get pri) = g := by
              simpa using hg
            have h1 := Nat.min_le_left bytes (s.ios_per_epoch.get pri)
            rename_i hc _ _ _
            exact ⟨by omega, by omega⟩
          · exact ih _ g hg

/-- With a zero budget at the requested priority, the request loop
returns the raw amount immediately, with no sleep and no state change. -/
theorem request_impl_disabled (fuel : Nat) (pri : Fin 3) (a0 now : Nat)
    (s : RawIORateLimiter) (h : s.ios_per_epoch.get pri = 0) :
    request_impl (fuel + 1) pri a0 now s = ⟨some a0, 0, 0, s⟩ := by
  rw [request_impl]
  simp [h]

/-- Changing the configured rate always leaves the three epoch budgets
disabled-together: either all three were just stored, or the new High
budget is non-zero. -/
theorem set_ios_per_sec_inv (s : RawIORateLimiter) (r : Nat) :
    budgetsDisabledTogether (s.set_ios_per_sec r) := by
  rw [RawIORateLimiter.set_ios_per_sec]
  simp only []
  split
  · intro h
    exact ⟨h, h⟩
  · intro h
    rename_i hcond
    exact absurd (Or.inr h) hcond

/-- Refill preserves the disabled-together invariant. -/
theorem refill_inv (s : RawIORateLimiter) (now : Nat)
    (hs : budgetsDisabledTogether s) : budgetsDisabledTogether (s.refill now) := by
  by_cases h0 : s.ios_per_epoch.get prHigh = 0
  · rw [RawIORateLimiter.refill, if_pos h0]
    exact hs
  · intro h
    have he := refill_epoch_high s now
    have hz : s.ios_per_epoch.high = 0 := he ▸ h
    exact absurd hz h0

/-- The request loop preserves the disabled-together invariant. -/
theorem request_impl_inv (fuel : Nat) (pri : Fin 3) (a0 now : Nat)
    (s : RawIORateLimiter) (hs : budgetsDisabledTogether s) :
    budgetsDisabledTogether (request_impl fuel pri a0 now s).state := by
  have he := request_impl_epoch fuel pri a0 now s
  unfold budgetsDisabledTogether at *
  rw [he]
  exact hs

/-- Every operation sequence preserves the disabled-together invariant. -/
theorem runOps_inv (ops : List LimiterOp) (s : RawIORateLimiter)
    (hs : budgetsDisabledTogether s) : budgetsDisabledTogether (runOps s ops) := by
  induction ops generalizing s with
  | nil => exact hs
  | cons op rest ih =>
    refine ih _ ?_
    cases op with
    | setRate r => exact set_ios_per_sec_inv s r
    | doRefill now => exact refill_inv s now hs
    | doRequest fuel pri amount now => exact request_impl_inv fuel pri amount now s hs

/-- A freshly created limiter satisfies the disabled-together invariant. -/
theorem new_inv (now0 : Nat) : budgetsDisabledTogether (RawIORateLimiter.new now0) :=
  fun _ => ⟨rfl, rfl⟩

/-- A three-slot array whose slots are all zero reads zero at every index. -/
theorem Tri.get_all_zero (t : Tri Nat) (h1 : t.low = 0) (h2 : t.medium = 0)
    (h3 : t.high = 0) (i : Fin 3) : t.get i = 0 := by
  fin_cases i
  · exact h1
  · exact h2
  · exact h3

/-- A read request whose type is not `Export` bypasses the raw limiter
entirely: the facade grants the full amount and leaves the raw limiter
state untouched. -/
theorem facade_read_passthrough (l : IORateLimiter) (fuel : Nat) (io_type : IOType)
    (io_op : IOOp) (bytes now : Nat) (hop : io_op = IOOp.Read)
    (ht : io_type ≠ IOType.Export) :
    (l.request fuel io_type io_op bytes now).1 = some bytes ∧
    (l.request fuel io_type io_op bytes now).2.throughput_limiter = l.throughput_limiter := by
  subst hop
  rw [IORateLimiter.request]
  have hcond : ¬(IOOp.Read = IOOp.Write ∨ io_type = IOType.Export) := by
    rintro (h | h)
    · exact IOOp.noConfusion h
    · exact ht h
  rw [if_neg hcond]
  exact ⟨rfl, rfl⟩

/-- Effect of a second refill at the same instant, with a non-zero High
budget and no intervening requests: the schedule and the pending slots
are stable, but the High epoch counter is reset again (to the pending
amount that the first refill just zeroed) and the High estimator
advances one further step. -/
theorem refill_twice_effect (s : RawIORateLimiter) (now : Nat)
    (h : s.ios_per_epoch.high ≠ 0) :
    ((s.refill now).refill now).next_refill_time = (s.refill now).next_refill_time ∧
    ((s.refill now).refill now).pending_ios.high = (s.refill now).pending_ios.high ∧
    ((s.refill now).refill now).ios_through.high = 0 ∧
    (((s.refill now).refill now).estimated_ios_through.high).count =
      ((s.refill now).estimated_ios_through.high).count + 1 := by
  have h1 : (s.refill now).ios_per_epoch.high ≠ 0 := by
    rw [refill_epoch_high]
    exact h
  have hp1 := refill_swaps_pending s now h
  have hp2 := refill_swaps_pending (s.refill now) now h1
  refine ⟨?_, ?_, ?_, ?_⟩
  · rw [refill_next_refill_time _ now h1, refill_next_refill_time s now h]
  · rw [hp2.2.1, hp1.2.1]
  · rw [hp2.1, hp1.2.1]
  · exact refill_estimator_high_count _ now h1

/-- C1, counterexample: in `c1State` the Low priority has pending bytes 5
against a Low budget of 4 and High budget 10, so the claim predicts
`bytes_through[Low] = 4` (the satisfied pending bytes) and
`pending_bytes[Low] = 1` after refill; the code leaves both at their old
values 7 and 5, because the refill loop runs only for High and Medium. -/
theorem claim_C1_counterexample :
    ¬ ((c1State.refill 100).ios_through.low = 4 ∧
       (c1State.refill 100).pending_ios.low = 1) := by
  decide

/-- C1, amended: refill performs no pending/satisfied computation for the
Low priority at all; `ios_through[Low]` and `pending_ios[Low]` are left
unchanged by every refill (only the Low budget can change, through the
estimation cascade from Medium). -/
theorem claim_C1_refill_leaves_low_alone (s : RawIORateLimiter) (now : Nat) :
    (s.refill now).ios_through.low = s.ios_through.low ∧
    (s.refill now).pending_ios.low = s.pending_ios.low :=
  refill_low_untouched s now

/-- C2, counterexample: in `c2State` the High priority has pending bytes
25 against a High budget of 10, so the claim predicts the new epoch to
start charged with exactly the limit 10 and `pending_ios[High] = 15`;
the code instead swaps the full 25 into the epoch counter and zeroes the
pending slot. -/
theorem claim_C2_counterexample :
    ¬ ((c2State.refill 100).ios_through.high = 10 ∧
       (c2State.refill 100).pending_ios.high = 15) := by
  decide

/-- C2, amended: for High and Medium, refill starts the new epoch charged
with the whole of `pending_ios[p]` (not clamped to the limit) and zeroes
`pending_ios[p]` unconditionally; the `min` with the limit applies only
to the previous epoch counter fed into the estimator. -/
theorem claim_C2_refill_swaps_full_pending
    (s : RawIORateLimiter) (now : Nat) (h : s.ios_per_epoch.high ≠ 0) :
    (s.refill now).ios_through.high = s.pending_ios.high ∧
    (s.refill now).pending_ios.high = 0 ∧
    (s.refill now).ios_through.medium = s.pending_ios.medium ∧
    (s.refill now).pending_ios.medium = 0 :=
  refill_swaps_pending s now h

/-- C2, witness: the amended statement evaluated at `c2State`. -/
theorem claim_C2_witness :
    c2State.ios_per_epoch.high ≠ 0 ∧
    ((c2State.refill 100).ios_through.high = c2State.pending_ios.high ∧
     (c2State.refill 100).pending_ios.high = 0 ∧
     (c2State.refill 100).ios_through.medium = c2State.pending_ios.medium ∧
     (c2State.refill 100).pending_ios.medium = 0) :=
  ⟨by decide, claim_C2_refill_swaps_full_pending c2State 100 (by decide)⟩

/-- C3, counterexample: in `c3State` (over-budget request of 10 at High,
budget 10, pending already 5, next refill at 110, now 100) the claim
predicts a single sleep and an immediate return of the clamped amount
10; the code instead re-checks after each sleep, and within three loop
iterations it has already slept three times without returning. -/
theorem claim_C3_counterexample :
    ¬ ((request_impl 3 prHigh 10 100 c3State).sleeps = 1 ∧
       (request_impl 3 prHigh 10 100 c3State).granted = some 10) := by
  decide

/-- C3, amended: each sleep of an over-budget request lasts exactly
`next_refill_time - now`, with no extension by
`refill_period * (pending / cached_limit)`; the total slept time is the
number of sleeps times that single duration, because the caller loops
and re-checks its pending snapshot after every sleep (the schedule is
not a one-shot deadline). -/
theorem claim_C3_wait_no_extension (fuel : Nat) (pri : Fin 3) (a0 now : Nat)
    (s : RawIORateLimiter) :
    (request_impl fuel pri a0 now s).total_wait =
      (request_impl fuel pri a0 now s).sleeps * (s.next_refill_time - now) :=
  (request_impl_wait_formula fuel pri a0 now s).1

/-- C4, counterexample: a Read request of type `Export` is rate limited:
with a High budget of 10, requesting 20 bytes returns only 10, not the
untouched 20 the claim predicts. -/
theorem claim_C4_counterexample :
    (c4Limiter.request 1 IOType.Export IOOp.Read 20 100).1 ≠ some 20 := by
  decide

/-- C4, amended: a Read request bypasses the raw limiter and returns its
bytes unchanged for every type EXCEPT `Export`; reads of type `Export`
go through the limiter like writes (source condition
`io_op == IOOp::Write || io_type == IOType::Export`). -/
theorem claim_C4_reads_passthrough_except_export
    (l : IORateLimiter) (fuel : Nat) (io_type : IOType) (io_op : IOOp)
    (bytes now : Nat) (hop : io_op = IOOp.Read) (ht : io_type ≠ IOType.Export) :
    (l.request fuel io_type io_op bytes now).1 = some bytes ∧
    (l.request fuel io_type io_op bytes now).2.throughput_limiter = l.throughput_limiter :=
  facade_read_passthrough l fuel io_type io_op bytes now hop ht

/-- C4, witness: the amended statement evaluated at `c4Limiter` with a
Read of type `Other`. -/
theorem claim_C4_witness :
    IOOp.Read = IOOp.Read ∧ IOType.Other ≠ IOType.Export ∧
    (c4Limiter.request 1 IOType.Other IOOp.Read 20 100).1 = some 20 ∧
    (c4Limiter.request 1 IOType.Other IOOp.Read 20 100).2.throughput_limiter =
      c4Limiter.throughput_limiter := by
  have h := claim_C4_reads_passthrough_except_export c4Limiter 1 IOType.Other IOOp.Read
    20 100 rfl (by decide)
  exact ⟨rfl, by decide, h.1, h.2⟩

/-- C5, counterexample: from `c5State` (High budget 10, pending 5, fresh
estimators), a second refill at the same instant resets the High epoch
counter from 5 back to 0 — a smaller value, forgetting the pending bytes
the first refill charged — and advances the High estimator an extra step
(count 2 instead of 1), so refill at a fixed instant is not idempotent. -/
theorem claim_C5_counterexample :
    ((c5State.refill 100).refill 100).ios_through.high ≠
      (c5State.refill 100).ios_through.high ∧
    (((c5State.refill 100).refill 100).estimated_ios_through.high).count ≠
      ((c5State.refill 100).estimated_ios_through.high).count := by
  decide

/-- C5, amended: invoking refill twice at the same instant with a
non-zero High budget keeps `next_refill_time` and the pending slots
stable, but the second invocation resets the High epoch counter again
(to 0, the pending amount the first refill zeroed) and advances the High
estimator by one further step; it may therefore also change budgets when
that step crosses an emission boundary. -/
theorem claim_C5_second_refill_not_idempotent (s : RawIORateLimiter) (now : Nat)
    (h : s.ios_per_epoch.high ≠ 0) :
    ((s.refill now).refill now).next_refill_time = (s.refill now).next_refill_time ∧
    ((s.refill now).refill now).pending_ios.high = (s.refill now).pending_ios.high ∧
    ((s.refill now).refill now).ios_through.high = 0 ∧
    (((s.refill now).refill now).estimated_ios_through.high).count =
      ((s.refill now).estimated_ios_through.high).count + 1 :=
  refill_twice_effect s now h

/-- C5, witness: the amended statement evaluated at `c5State`. -/
theorem claim_C5_witness :
    c5State.ios_per_epoch.high ≠ 0 ∧
    (((c5State.refill 100).refill 100).next_refill_time =
        (c5State.refill 100).next_refill_time ∧
     ((c5State.refill 100).refill 100).pending_ios.high =
        (c5State.refill 100).pending_ios.high ∧
     ((c5State.refill 100).refill 100).ios_through.high = 0 ∧
     (((c5State.refill 100).refill 100).estimated_ios_through.high).count =
        ((c5State.refill 100).estimated_ios_through.high).count + 1) :=
  ⟨by decide, claim_C5_second_refill_not_idempotent c5State 100 (by decide)⟩

/-- C6: the request contract.  With at least one requested byte: when the
budget of the mapped priority is zero the facade grants the full amount
and the raw loop returns it immediately with zero sleeps and zero wait
and an unchanged state; and whatever amount the facade ever grants
satisfies `0 < granted ≤ bytes`. -/
theorem claim_C6_request_contract
    (l : IORateLimiter) (io_type : IOType) (io_op : IOOp) (bytes now : Nat)
    (hb : 1 ≤ bytes) :
    (l.throughput_limiter.ios_per_epoch.get (l.priority_map io_type).idx = 0 →
      ∀ fuel,
        (l.request (fuel + 1) io_type io_op bytes now).1 = some bytes ∧
        request_impl (fuel + 1) (l.priority_map io_type).idx bytes now l.throughput_limiter =
          ⟨some bytes, 0, 0, l.throughput_limiter⟩) ∧
    (∀ fuel g, (l.request fuel io_type io_op bytes now).1 = some g → 0 < g ∧ g ≤ bytes) := by
  constructor
  · intro h fuel
    refine ⟨?_, request_impl_disabled fuel _ bytes now _ h⟩
    rw [IORateLimiter.request]
    split
    · rw [request_impl_disabled fuel _ bytes now _ h]
    · rfl
  · intro fuel g hg
    rw [IORateLimiter.request] at hg
    split at hg
    · simp only [] at hg
      split at hg
      · rename_i x heq
        have hx := request_impl_granted_bounds fuel _ bytes now _ hb x heq
        obtain rfl : x = g := by simpa using hg
        exact hx
      · simp at hg
    · obtain rfl : bytes = g := by simpa using hg
      exact ⟨by omega, by omega⟩

/-- C6, witness: the contract evaluated on the disabled facade
`c6Limiter` with a 5-byte `ForegroundWrite` write. -/
theorem claim_C6_witness :
    1 ≤ 5 ∧
    (c6Limiter.request 1 IOType.ForegroundWrite IOOp.Write 5 0).1 = some 5 ∧
    request_impl 1 (c6Limiter.priority_map IOType.ForegroundWrite).idx 5 0
        c6Limiter.throughput_limiter =
      ⟨some 5, 0, 0, c6Limiter.throughput_limiter⟩ ∧
    (0 < 5 ∧ 5 ≤ 5) := by
  have hc := claim_C6_request_contract c6Limiter IOType.ForegroundWrite IOOp.Write 5 0
    (by decide)
  have h0 : c6Limiter.throughput_limiter.ios_per_epoch.get
      (c6Limiter.priority_map IOType.ForegroundWrite).idx = 0 := by decide
  have h1 := hc.1 h0 0
  exact ⟨by decide, h1.1, h1.2, hc.2 1 5 (by decide)⟩

/-- C7: in every state reachable from a fresh limiter by any sequence of
`set_ios_per_sec`, `refill` and `request_impl` operations, a zero High
budget forces zero Medium and Low budgets, and then every request at
every priority returns its amount immediately, with no sleep and no
state change. -/
theorem claim_C7_disabled_invariant (now0 : Nat) (ops : List LimiterOp)
    (h : (runOps (RawIORateLimiter.new now0) ops).ios_per_epoch.high = 0) :
    (runOps (RawIORateLimiter.new now0) ops).ios_per_epoch.medium = 0 ∧
    (runOps (RawIORateLimiter.new now0) ops).ios_per_epoch.low = 0 ∧
    ∀ fuel pri amount now,
      request_impl (fuel + 1) pri amount now (runOps (RawIORateLimiter.new now0) ops) =
        ⟨some amount, 0, 0, runOps (RawIORateLimiter.new now0) ops⟩ := by
  have hi := runOps_inv ops _ (new_inv now0) h
  refine ⟨hi.1, hi.2, ?_⟩
  intro fuel pri amount now
  exact request_impl_disabled fuel pri amount now _ (Tri.get_all_zero _ hi.2 hi.1 h pri)

/-- C7, witness: the invariant evaluated after `set_ios_per_sec 0` from a
fresh limiter, with a 7-byte request at High. -/
theorem claim_C7_witness :
    (runOps (RawIORateLimiter.new 0) [LimiterOp.setRate 0]).ios_per_epoch.high = 0 ∧
    (runOps (RawIORateLimiter.new 0) [LimiterOp.setRate 0]).ios_per_epoch.medium = 0 ∧
    (runOps (RawIORateLimiter.new 0) [LimiterOp.setRate 0]).ios_per_epoch.low = 0 ∧
    request_impl 1 prHigh 7 5 (runOps (RawIORateLimiter.new 0) [LimiterOp.setRate 0]) =
      ⟨some 7, 0, 0, runOps (RawIORateLimiter.new 0) [LimiterOp.setRate 0]⟩ := by
  have hc := claim_C7_disabled_invariant 0 [LimiterOp.setRate 0] (by decide)
  exact ⟨by decide, hc.1, hc.2.1, hc.2.2 0 prHigh 7 5⟩

/-- C8, counterexample: the claim predicts a High budget of
`floor(1000 * 0.050) = 50` after `set_io_rate_limit(1000)`; the code
uses the 30 ms default period and stores 30. -/
theorem claim_C8_counterexample :
    ((RawIORateLimiter.new 0).set_ios_per_sec 1000).ios_per_epoch.high ≠ 50 := by
  decide

/-- C8, amended: `set_ios_per_sec r` sets the High epoch budget to
`r * refill_period / 1000` with the 30 ms default refill period, i.e.
`floor(r * 0.030)` (in the exact-arithmetic model of the single `f64`
product). -/
theorem claim_C8_budget_thirty_ms (s : RawIORateLimiter) (r : Nat) :
    (s.set_ios_per_sec r).ios_per_epoch.high = r * 30 / 1000 := by
  rw [RawIORateLimiter.set_ios_per_sec]
  simp only []
  split <;> rfl

/-- C9: dropping the daemon stores `false` (not `true`) into the shared
stop flag, so the ticker loop condition `!stop` remains `true` and the
background thread keeps running forever — the claimed clean shutdown
does not happen. -/
theorem claim_C9_drop_keeps_ticker_running :
    (new_io_rate_limiter_daemon.drop).stop = false ∧
    (new_io_rate_limiter_daemon.drop).loopContinues = true :=
  ⟨rfl, rfl⟩

/-- C10: refill is total exactly when the protecting mutex becomes
available within `DEFAULT_REFILL_PERIOD` (modelled by the boolean lock
oracle): with the lock it always returns the normally refilled state,
without it the `expect` panic (modelled as `none`) is taken. -/
theorem claim_C10_refill_lock_totality (b : Bool) (s : RawIORateLimiter) (now : Nat) :
    (b = true → refill_with_lock b s now = some (s.refill now)) ∧
    (b = false → refill_with_lock b s now = none) := by
  constructor
  · intro h
    subst h
    rfl
  · intro h
    subst h
    rfl

/-- C10, witness: both lock outcomes evaluated on a fresh limiter. -/
theorem claim_C10_witness :
    refill_with_lock true (RawIORateLimiter.new 0) 0 =
      some ((RawIORateLimiter.new 0).refill 0) ∧
    refill_with_lock false (RawIORateLimiter.new 0) 0 = none :=
  ⟨(claim_C10_refill_lock_totality true (RawIORateLimiter.new 0) 0).1 rfl,
   (claim_C10_refill_lock_totality false (RawIORateLimiter.new 0) 0).2 rfl⟩

end RateLimiterModel
